import Mathlib

/-!
Shallow embedding of the cosmo-x rate-limit wrapper and its peripheral
helpers (error classifier, backoff policy, scheduler HTTP client, bookmark
rating, environment loading), translated from the TypeScript source
(`src/rate-limiter.ts`, `src/client.ts`, `src/scheduler.ts`,
`src/operations/measure.ts`).

Modelling conventions:
- Times (unix milliseconds) and computed durations are rationals; every
  occurrence of `Date.now()` during attempt `n` of the retry loop is the
  abstract value `time n`.
- A thrown JavaScript value is a `Thrown`: whether it is an `Error`
  instance, its `message`, and an optional attached `headers` record.
- The impure thunk passed to `RateLimiter.call` is modelled as a function
  from the invocation index (0-based) to its outcome.
- `await sleep(...)` only suspends; it has no effect on the store, so the
  pre-check wait of `call` is not part of the state transition.
-/

/-- JavaScript substring test on lists of characters: prefix check. -/
def isPrefixB : List Char → List Char → Bool
  | [], _ => true
  | _ :: _, [] => false
  | a :: as, b :: bs => a == b && isPrefixB as bs

/-- JavaScript `String.prototype.includes` on lists of characters. -/
def containsB : List Char → List Char → Bool
  | pat, [] => isPrefixB pat []
  | pat, b :: bs => isPrefixB pat (b :: bs) || containsB pat bs

/-- JavaScript `s.includes(pat)`. -/
def strIncludes (s pat : String) : Bool :=
  containsB pat.data s.data

/-- A thrown JavaScript value, as far as the rate limiter inspects it:
`isError` is `err instanceof Error`, `message` its message, and `headers`
an attached `headers` record (list of header-name/value pairs) when the
value is an object carrying one. -/
structure Thrown where
  isError : Bool
  message : String
  headers : Option (List (String × String))
deriving DecidableEq

/-- From `is429` in `src/rate-limiter.ts`: an error is rate-limit-classified
iff it is an `Error` whose message contains `"429"` or
`"Too Many Requests"`. -/
def is429 (err : Thrown) : Bool :=
  err.isError && (strIncludes err.message "429" || strIncludes err.message "Too Many Requests")

/-- Numeric value of a decimal digit character. -/
def digitVal (c : Char) : Nat := c.toNat - 48

/-- Value of a list of decimal digit characters, most significant first. -/
def digitsToNat (ds : List Char) : Nat :=
  List.foldl (fun a c => a * 10 + digitVal c) 0 ds

/-- JavaScript whitespace skipped by `parseInt`. -/
def isJsWS (c : Char) : Bool :=
  c == ' ' || c == '\t' || c == '\n' || c == '\r'

/-- JavaScript `parseInt(s, 10)`: skip leading whitespace, optional sign,
then the longest prefix of decimal digits; `none` models the `NaN` result
when no digit is found. -/
def jsParseInt (s : String) : Option Int :=
  let l := s.data.dropWhile isJsWS
  let sgn : Int := match l with
    | '-' :: _ => -1
    | _ => 1
  let l2 : List Char := match l with
    | '-' :: rest => rest
    | '+' :: rest => rest
    | _ => l
  let ds := l2.takeWhile Char.isDigit
  if ds.isEmpty then none else some (sgn * (digitsToNat ds : Int))

/-- Result of `extractResetSeconds`: the JavaScript function returns
`null`, `NaN` (when `parseInt` fails on a present, truthy header value),
or a number. -/
inductive ResetHint where
  | null
  | nan
  | num (q : ℚ)
deriving DecidableEq

/-- From `extractResetSeconds` in `src/rate-limiter.ts`: look for an
`x-rate-limit-reset` header on the thrown value; a missing headers record
or missing/empty (falsy) header value gives `null`; a header value that
`parseInt` cannot parse gives `NaN` (it propagates through
`parseInt(reset, 10) * 1000` and `Math.max(0, (resetTime - now) / 1000)`);
otherwise the seconds remaining until the reset timestamp. -/
def extractResetSeconds (err : Thrown) (now : ℚ) : ResetHint :=
  match err.headers with
  | none => ResetHint.null
  | some hs =>
    match hs.lookup "x-rate-limit-reset" with
    | none => ResetHint.null
    | some v =>
      if v = "" then ResetHint.null
      else
        match jsParseInt v with
        | none => ResetHint.nan
        | some n => ResetHint.num (max 0 (((n : ℚ) * 1000 - now) / 1000))

/-- From `RateLimiter.getWaitMs`: use the extracted reset hint when it is a
truthy positive number (`resetAfter && resetAfter > 0`; `null`, `NaN` and
`0` are all falsy), adding a 1-second buffer; otherwise exponential backoff
`baseDelay * 2 ^ attempt`. -/
def getWaitMs (err : Thrown) (attempt : Nat) (baseDelay : ℚ) (now : ℚ) : ℚ :=
  match extractResetSeconds err now with
  | ResetHint.num q => if 0 < q then q * 1000 + 1000 else baseDelay * 2 ^ attempt
  | _ => baseDelay * 2 ^ attempt

/-- One per-endpoint entry of the rate limiter state store
(`RateLimitState` in `src/rate-limiter.ts`). -/
structure RateLimitState where
  endpoint : String
  remaining : Nat
  resetAt : ℚ
  lastHit : ℚ
deriving DecidableEq

/-- The `limits` map of a `RateLimiter`: endpoint label to last-known
state, absent entries modelled as `none`. -/
def Store : Type := String → Option RateLimitState

/-- The empty store: a freshly constructed `RateLimiter` has no entries. -/
def emptyStore : Store := fun _ => none

/-- `Map.set`: overwrite (or create) the entry for a label. -/
def Store.set (s : Store) (ep : String) (st : RateLimitState) : Store :=
  fun k => if k = ep then some st else s k

/-- `RateLimiter.getState`. -/
def Store.get (s : Store) (ep : String) : Option RateLimitState := s ep

/-- `RateLimiter.isLimited`: an entry exists, is exhausted, and its reset
time is strictly in the future. -/
def isLimited (s : Store) (ep : String) (now : ℚ) : Bool :=
  match s ep with
  | some st => st.remaining == 0 && now < st.resetAt
  | none => false

/-- Outcome of one `RateLimiter.call`: the returned value or propagated
error, the store after the call, and the number of thunk invocations. -/
inductive CallOutcome (α : Type) where
  | success (v : α) (store : Store) (calls : Nat)
  | failure (e : Thrown) (store : Store) (calls : Nat)

/-- Number of thunk invocations performed. -/
def CallOutcome.calls {α : Type} : CallOutcome α → Nat
  | CallOutcome.success _ _ n => n
  | CallOutcome.failure _ _ n => n

/-- The store after the call. -/
def CallOutcome.store {α : Type} : CallOutcome α → Store
  | CallOutcome.success _ s _ => s
  | CallOutcome.failure _ s _ => s

/-- The propagated error, when the call failed. -/
def CallOutcome.errValue {α : Type} : CallOutcome α → Option Thrown
  | CallOutcome.success _ _ _ => none
  | CallOutcome.failure e _ _ => some e

/-- The returned value, when the call succeeded. -/
def CallOutcome.okValue {α : Type} : CallOutcome α → Option α
  | CallOutcome.success v _ _ => some v
  | CallOutcome.failure _ _ _ => none

/-- The attempt loop of `RateLimiter.call`, from attempt index `attempt`
with `fuel` further attempts allowed after the current one
(`fuel = maxRetries - attempt`). On success: write the healthy state and
return. On a non-rate-limit error: rethrow at once, store untouched. On a
rate-limit error: write the exhausted state with
`resetAt = Date.now() + waitMs`; retry if budget remains, otherwise throw
the last error. -/
def callFrom {α : Type} (ep : String) (thunk : Nat → Except Thrown α)
    (time : Nat → ℚ) (baseDelay : ℚ) :
    Nat → Nat → Store → CallOutcome α
  | fuel, attempt, store =>
    match thunk attempt with
    | Except.ok v =>
        CallOutcome.success v
          (Store.set store ep ⟨ep, 1, 0, time attempt⟩) (attempt + 1)
    | Except.error e =>
        if is429 e then
          let store2 := Store.set store ep
            ⟨ep, 0, time attempt + getWaitMs e attempt baseDelay (time attempt), time attempt⟩
          match fuel with
          | 0 => CallOutcome.failure e store2 (attempt + 1)
          | fuel + 1 => callFrom ep thunk time baseDelay fuel (attempt + 1) store2
        else
          CallOutcome.failure e store (attempt + 1)

/-- `RateLimiter.call ep fn`: the pre-check wait only suspends (no store
change), then the attempt loop runs for attempt indices `0 .. maxRetries`
inclusive. -/
def call {α : Type} (ep : String) (thunk : Nat → Except Thrown α)
    (time : Nat → ℚ) (baseDelay : ℚ) (maxRetries : Nat) (store : Store) :
    CallOutcome α :=
  callFrom ep thunk time baseDelay maxRetries 0 store

/-- An HTTP response as the scheduler client observes it: the status code
and the body text (`res.json()` is abstracted as the body itself). -/
structure HttpResponse where
  status : Nat
  body : String
deriving DecidableEq

/-- The `res.ok` flag of the Fetch API: status in the range 200-299. -/
def respOk (r : HttpResponse) : Bool :=
  decide (200 ≤ r.status) && decide (r.status ≤ 299)

/-- The error message built by `Scheduler.request` for a non-2xx
response. -/
def schedMsg (method path : String) (res : HttpResponse) : String :=
  "Scheduler " ++ method ++ " " ++ path ++ ": " ++ toString res.status ++ " " ++ res.body

/-- `Scheduler.request` from `src/scheduler.ts`: one fetch; a 2xx response
yields the parsed body, any other status throws the descriptive error. -/
def schedulerRequest (method path : String) (res : HttpResponse) : Except String String :=
  if respOk res then Except.ok res.body
  else Except.error (schedMsg method path res)

/-- `Scheduler.schedule`. -/
def schedulerSchedule (res : HttpResponse) : Except String String :=
  schedulerRequest "POST" "/schedule" res

/-- `Scheduler.scheduleBatch`. -/
def schedulerScheduleBatch (res : HttpResponse) : Except String String :=
  schedulerRequest "POST" "/schedule-batch" res

/-- `Scheduler.scheduleThread`. -/
def schedulerScheduleThread (res : HttpResponse) : Except String String :=
  schedulerRequest "POST" "/schedule-thread" res

/-- `Scheduler.listPosts`: optional status filter appended to the path. -/
def schedulerListPosts (status : Option String) (res : HttpResponse) : Except String String :=
  schedulerRequest "GET"
    (match status with
     | some s => "/posts?status=" ++ s
     | none => "/posts") res

/-- `Scheduler.cancel`. -/
def schedulerCancel (res : HttpResponse) : Except String String :=
  schedulerRequest "POST" "/cancel" res

/-- `Scheduler.health` from `src/scheduler.ts`: a bare fetch of
`/health` whose body is parsed and returned without any `res.ok` check. -/
def schedulerHealth (res : HttpResponse) : Except String String :=
  Except.ok res.body

/-- The four rating buckets of `measureArticle`. -/
inductive Rating where
  | exceptional
  | good
  | ok
  | failed
deriving DecidableEq

/-- Bookmark rate from `measureArticle` in `src/operations/measure.ts`:
`impressions > 0 ? bookmarks / impressions * 100 : 0`. -/
def bookmarkRate (bookmarks impressions : Nat) : ℚ :=
  if 0 < impressions then ((bookmarks : ℚ) / (impressions : ℚ)) * 100 else 0

/-- The rating ladder of `measureArticle`: thresholds 8, 5, 2 tested with
`>=` from the top. -/
def ratingOf (rate : ℚ) : Rating :=
  if 8 ≤ rate then Rating.exceptional
  else if 5 ≤ rate then Rating.good
  else if 2 ≤ rate then Rating.ok
  else Rating.failed

/-- The config record built by `envFromProcess` in `src/client.ts`. -/
structure CosmoEnv where
  consumerKey : String
  consumerSecret : String
  accessToken : String
  accessTokenSecret : String
  bearerToken : String
  schedulerUrl : Option String
  schedulerKey : Option String
deriving DecidableEq

/-- A process environment: variable name to value, `none` when unset. -/
def Env : Type := String → Option String

/-- The `required` record of `envFromProcess`, in object key order: config
field name paired with the environment variable it reads. -/
def requiredVars : List (String × String) :=
  [("consumerKey", "X_CONSUMER_KEY"),
   ("consumerSecret", "X_CONSUMER_SECRET"),
   ("accessToken", "X_ACCESS_TOKEN"),
   ("accessTokenSecret", "X_ACCESS_TOKEN_SECRET"),
   ("bearerToken", "X_BEARER_TOKEN")]

/-- JavaScript falsiness of an environment value: unset (`undefined`) or
the empty string. -/
def falsyEnv : Option String → Bool
  | none => true
  | some s => s == ""

/-- The `missing` list of `envFromProcess`: field names of required
variables whose value is falsy, in declaration order. -/
def missingOf (env : Env) : List String :=
  (requiredVars.filter (fun p => falsyEnv (env p.2))).map (fun p => p.1)

/-- Environment read defaulting to `""` (only used on the success path,
where the value is known non-falsy). -/
def getEnvStr (env : Env) (k : String) : String := (env k).getD ""

/-- JavaScript `a ?? b` on environment values (nullish, not falsy: a set
empty string is kept). -/
def jsNullish (a b : Option String) : Option String :=
  match a with
  | some v => some v
  | none => b

/-- From `envFromProcess` in `src/client.ts`: throws
`"Missing env vars: <names>"` listing the missing entries, else returns
the config with the five credentials and the optional scheduler vars. -/
def envFromProcess (env : Env) : Except String CosmoEnv :=
  if 0 < (missingOf env).length then
    Except.error ("Missing env vars: " ++ String.intercalate ", " (missingOf env))
  else
    Except.ok
      ⟨getEnvStr env "X_CONSUMER_KEY",
       getEnvStr env "X_CONSUMER_SECRET",
       getEnvStr env "X_ACCESS_TOKEN",
       getEnvStr env "X_ACCESS_TOKEN_SECRET",
       getEnvStr env "X_BEARER_TOKEN",
       jsNullish (env "SCHEDULER_URL") (env "SCHEDULER_API_URL"),
       env "SCHEDULER_API_KEY"⟩

/-- Invariant of a single stored `RateLimitState` entry, relative to the
thunk, the attempt-time function and the base delay used by the calls that
wrote it: `remaining` is the binary healthy/exhausted flag; a healthy
entry has `resetAt = 0`; an exhausted entry was written at the time of a
failing attempt, with `resetAt` that time plus the computed wait (which is
strictly in the future when the base delay is positive). -/
def entryInv {α : Type} (thunk : Nat → Except Thrown α) (time : Nat → ℚ) (bd : ℚ)
    (st : RateLimitState) : Prop :=
  (st.remaining = 0 ∨ st.remaining = 1) ∧
  (st.remaining = 1 → st.resetAt = 0) ∧
  (st.remaining = 0 → ∃ a e, thunk a = Except.error e ∧ st.lastHit = time a ∧
    st.resetAt = time a + getWaitMs e a bd (time a) ∧ (0 < bd → st.lastHit < st.resetAt))

/-- All entries of the store satisfy `entryInv`. -/
def storeInv {α : Type} (thunk : Nat → Except Thrown α) (time : Nat → ℚ) (bd : ℚ)
    (store : Store) : Prop :=
  ∀ label st, store label = some st → entryInv thunk time bd st

theorem callFrom_ok {α : Type} (ep : String) (thunk : Nat → Except Thrown α)
    (time : Nat → ℚ) (bd : ℚ) (fuel attempt : Nat) (store : Store) {v : α}
    (h : thunk attempt = Except.ok v) :
    callFrom ep thunk time bd fuel attempt store =
      CallOutcome.success v (Store.set store ep ⟨ep, 1, 0, time attempt⟩) (attempt + 1) := by
  conv_lhs => unfold callFrom
  rw [h]

theorem callFrom_nonlimit {α : Type} (ep : String) (thunk : Nat → Except Thrown α)
    (time : Nat → ℚ) (bd : ℚ) (fuel attempt : Nat) (store : Store) {e : Thrown}
    (h : thunk attempt = Except.error e) (h2 : is429 e = false) :
    callFrom ep thunk time bd fuel attempt store =
      CallOutcome.failure e store (attempt + 1) := by
  conv_lhs => unfold callFrom
  rw [h]
  simp [h2]

theorem callFrom_limit_zero {α : Type} (ep : String) (thunk : Nat → Except Thrown α)
    (time : Nat → ℚ) (bd : ℚ) (attempt : Nat) (store : Store) {e : Thrown}
    (h : thunk attempt = Except.error e) (h2 : is429 e = true) :
    callFrom ep thunk time bd 0 attempt store =
      CallOutcome.failure e
        (Store.set store ep
          ⟨ep, 0, time attempt + getWaitMs e attempt bd (time attempt), time attempt⟩)
        (attempt + 1) := by
  conv_lhs => unfold callFrom
  rw [h]
  simp [h2]

theorem callFrom_limit_succ {α : Type} (ep : String) (thunk : Nat → Except Thrown α)
    (time : Nat → ℚ) (bd : ℚ) (fuel attempt : Nat) (store : Store) {e : Thrown}
    (h : thunk attempt = Except.error e) (h2 : is429 e = true) :
    callFrom ep thunk time bd (fuel + 1) attempt store =
      callFrom ep thunk time bd fuel (attempt + 1)
        (Store.set store ep
          ⟨ep, 0, time attempt + getWaitMs e attempt bd (time attempt), time attempt⟩) := by
  conv_lhs => unfold callFrom
  rw [h]
  simp [h2]

theorem callFrom_calls_bounds {α : Type} (ep : String) (thunk : Nat → Except Thrown α)
    (time : Nat → ℚ) (bd : ℚ) :
    ∀ (fuel attempt : Nat) (store : Store),
      attempt + 1 ≤ (callFrom ep thunk time bd fuel attempt store).calls ∧
      (callFrom ep thunk time bd fuel attempt store).calls ≤ attempt + fuel + 1 := by
  intro fuel
  induction fuel with
  | zero =>
      intro attempt store
      cases h : thunk attempt with
      | ok v =>
          rw [callFrom_ok ep thunk time bd 0 attempt store h]
          simp [CallOutcome.calls]
      | error e =>
          cases h2 : is429 e with
          | false =>
              rw [callFrom_nonlimit ep thunk time bd 0 attempt store h h2]
              simp [CallOutcome.calls]
          | true =>
              rw [callFrom_limit_zero ep thunk time bd attempt store h h2]
              simp [CallOutcome.calls]
  | succ fuel ih =>
      intro attempt store
      cases h : thunk attempt with
      | ok v =>
          rw [callFrom_ok ep thunk time bd (fuel + 1) attempt store h]
          simp only [CallOutcome.calls]
          omega
      | error e =>
          cases h2 : is429 e with
          | false =>
              rw [callFrom_nonlimit ep thunk time bd (fuel + 1) attempt store h h2]
              simp only [CallOutcome.calls]
              omega
          | true =>
              rw [callFrom_limit_succ ep thunk time bd fuel attempt store h h2]
              have := ih (attempt + 1)
                (Store.set store ep
                  ⟨ep, 0, time attempt + getWaitMs e attempt bd (time attempt), time attempt⟩)
              omega

/-- C1: for every endpoint label and thunk, `RateLimiter.call` invokes the
thunk at least once and at most `maxRetries + 1` times; with
`maxRetries = 2`, a thunk that fails with a rate-limit-classified error on
every invocation is invoked exactly 3 times and the propagated error is
the error thrown by the third invocation. -/
theorem call_thunk_invocation_bounds :
    (∀ (α : Type) (ep : String) (thunk : Nat → Except Thrown α) (time : Nat → ℚ)
        (bd : ℚ) (maxRetries : Nat) (store : Store),
      1 ≤ (call ep thunk time bd maxRetries store).calls ∧
      (call ep thunk time bd maxRetries store).calls ≤ maxRetries + 1) ∧
    (∀ (α : Type) (ep : String) (thunk : Nat → Except Thrown α) (time : Nat → ℚ)
        (bd : ℚ) (store : Store) (errAt : Nat → Thrown),
      (∀ n, thunk n = Except.error (errAt n)) →
      (∀ n, is429 (errAt n) = true) →
      (call ep thunk time bd 2 store).calls = 3 ∧
      (call ep thunk time bd 2 store).errValue = some (errAt 2)) := by
  constructor
  · intro α ep thunk time bd maxRetries store
    have h := callFrom_calls_bounds ep thunk time bd maxRetries 0 store
    unfold call
    omega
  · intro α ep thunk time bd store errAt hthunk h429
    unfold call
    rw [callFrom_limit_succ ep thunk time bd 1 0 store (hthunk 0) (h429 0)]
    rw [callFrom_limit_succ ep thunk time bd 0 1 _ (hthunk 1) (h429 1)]
    rw [callFrom_limit_zero ep thunk time bd 2 _ (hthunk 2) (h429 2)]
    simp [CallOutcome.calls, CallOutcome.errValue]

theorem call_thunk_invocation_bounds_witness :
    (call "search"
        (fun _ => (Except.error ⟨true, "HTTP 429: Too Many Requests", none⟩ : Except Thrown Nat))
        (fun _ => 0) 100 2 emptyStore).calls = 3 ∧
    (call "search"
        (fun _ => (Except.error ⟨true, "HTTP 429: Too Many Requests", none⟩ : Except Thrown Nat))
        (fun _ => 0) 100 2 emptyStore).errValue =
      some ⟨true, "HTTP 429: Too Many Requests", none⟩ :=
  call_thunk_invocation_bounds.2 Nat "search"
    (fun _ => Except.error ⟨true, "HTTP 429: Too Many Requests", none⟩)
    (fun _ => 0) 100 emptyStore
    (fun _ => ⟨true, "HTTP 429: Too Many Requests", none⟩)
    (fun _ => rfl)
    (fun _ => (by decide : is429 ⟨true, "HTTP 429: Too Many Requests", none⟩ = true))

/-- C2: a thunk whose failure is not rate-limit-classified has that
failure propagated at once by `RateLimiter.call` as the identical error
value, after exactly one invocation, and the whole store — in particular
the entry for the label, present or absent — is unchanged. -/
theorem call_non_rate_limit_propagates :
    ∀ (α : Type) (ep : String) (thunk : Nat → Except Thrown α) (time : Nat → ℚ)
      (bd : ℚ) (maxRetries : Nat) (store : Store) (e : Thrown),
      thunk 0 = Except.error e → is429 e = false →
      call ep thunk time bd maxRetries store = CallOutcome.failure e store 1 ∧
      Store.get (call ep thunk time bd maxRetries store).store ep = Store.get store ep := by
  intro α ep thunk time bd maxRetries store e h h2
  have heq : call ep thunk time bd maxRetries store = CallOutcome.failure e store 1 := by
    unfold call
    rw [callFrom_nonlimit ep thunk time bd maxRetries 0 store h h2]
  refine ⟨heq, ?_⟩
  rw [heq]
  rfl

theorem call_non_rate_limit_propagates_witness :
    call "post.create"
        (fun _ => (Except.error ⟨true, "HTTP 403: Forbidden", none⟩ : Except Thrown Nat))
        (fun _ => 0) 100 3 emptyStore =
      CallOutcome.failure ⟨true, "HTTP 403: Forbidden", none⟩ emptyStore 1 :=
  (call_non_rate_limit_propagates Nat "post.create"
    (fun _ => Except.error ⟨true, "HTTP 403: Forbidden", none⟩)
    (fun _ => 0) 100 3 emptyStore ⟨true, "HTTP 403: Forbidden", none⟩
    rfl (by decide)).1

/-- C3: whenever an invocation of the thunk inside the attempt loop of
`RateLimiter.call` succeeds, the loop returns that result immediately and
the stored state for the label afterwards is exactly
`{endpoint := label, remaining := 1, resetAt := 0, lastHit := now}`,
regardless of the prior store contents. -/
theorem call_success_state_write :
    ∀ (α : Type) (ep : String) (thunk : Nat → Except Thrown α) (time : Nat → ℚ)
      (bd : ℚ) (fuel attempt : Nat) (store : Store) (v : α),
      thunk attempt = Except.ok v →
      callFrom ep thunk time bd fuel attempt store =
        CallOutcome.success v (Store.set store ep ⟨ep, 1, 0, time attempt⟩) (attempt + 1) ∧
      Store.get (callFrom ep thunk time bd fuel attempt store).store ep =
        some ⟨ep, 1, 0, time attempt⟩ := by
  intro α ep thunk time bd fuel attempt store v h
  have heq := callFrom_ok ep thunk time bd fuel attempt store h
  refine ⟨heq, ?_⟩
  rw [heq]
  simp [CallOutcome.store, Store.get, Store.set]

theorem call_success_state_write_witness :
    Store.get
      (callFrom "search" (fun _ => (Except.ok 42 : Except Thrown Nat)) (fun _ => 777) 100
        3 0 emptyStore).store "search" =
      some ⟨"search", 1, 0, 777⟩ :=
  (call_success_state_write Nat "search" (fun _ => Except.ok 42) (fun _ => 777) 100
    3 0 emptyStore 42 rfl).2

theorem isPrefixB_iff (p : List Char) : ∀ l : List Char,
    isPrefixB p l = true ↔ ∃ t, l = p ++ t := by
  induction p with
  | nil => intro l; simp [isPrefixB]
  | cons a as ih =>
      intro l
      cases l with
      | nil =>
          simp [isPrefixB]
      | cons b bs =>
          simp only [isPrefixB, Bool.and_eq_true, beq_iff_eq, ih, List.cons_append,
            List.cons.injEq]
          constructor
          · rintro ⟨hab, t, ht⟩
            exact ⟨t, hab.symm, ht⟩
          · rintro ⟨t, hba, ht⟩
            exact ⟨hba.symm, t, ht⟩

theorem containsB_iff (p : List Char) : ∀ l : List Char,
    containsB p l = true ↔ ∃ l1 l2, l = l1 ++ p ++ l2 := by
  intro l
  induction l with
  | nil =>
      simp only [containsB, isPrefixB_iff]
      constructor
      · rintro ⟨t, ht⟩
        exact ⟨[], t, by simpa using ht⟩
      · rintro ⟨l1, l2, h⟩
        exact ⟨l2, by
          rcases List.append_eq_nil.mp h.symm with ⟨h1, h2⟩
          rcases List.append_eq_nil.mp h1 with ⟨h3, h4⟩
          simp [h2, h4]⟩
  | cons b bs ih =>
      simp only [containsB, Bool.or_eq_true, isPrefixB_iff, ih]
      constructor
      · rintro (⟨t, ht⟩ | ⟨l1, l2, h⟩)
        · exact ⟨[], t, by simpa using ht⟩
        · exact ⟨b :: l1, l2, by simp [h]⟩
      · rintro ⟨l1, l2, h⟩
        cases l1 with
        | nil =>
            exact Or.inl ⟨l2, by simpa using h⟩
        | cons c cs =>
            simp only [List.cons_append, List.cons.injEq] at h
            exact Or.inr ⟨cs, l2, h.2⟩

theorem strIncludes_iff (s pat : String) :
    strIncludes s pat = true ↔ ∃ l1 l2, s.data = l1 ++ pat.data ++ l2 :=
  containsB_iff pat.data s.data

/-- C6: the rate-limit classifier returns true iff the thrown value is an
error whose message contains `"429"` or `"Too Many Requests"` as a
(case-sensitive) substring; it is false for every non-error-shaped value;
`"HTTP 429: Too Many Requests"` classifies as rate-limited and
`"HTTP 403: Forbidden"` does not. -/
theorem is429_classifier_spec :
    (∀ t : Thrown, is429 t = true ↔
      (t.isError = true ∧
        ((∃ l1 l2, t.message.data = l1 ++ ("429" : String).data ++ l2) ∨
         (∃ l1 l2, t.message.data = l1 ++ ("Too Many Requests" : String).data ++ l2)))) ∧
    is429 ⟨true, "HTTP 429: Too Many Requests", none⟩ = true ∧
    is429 ⟨true, "HTTP 403: Forbidden", none⟩ = false ∧
    (∀ (m : String) (hs : Option (List (String × String))), is429 ⟨false, m, hs⟩ = false) := by
  refine ⟨?_, by decide, by decide, ?_⟩
  · intro t
    simp [is429, Bool.and_eq_true, Bool.or_eq_true, strIncludes_iff]
  · intro m hs
    simp [is429]

/-- C4: the computed wait is `hintSeconds * 1000 + 1000` when the
extracted hint is a positive number, and `baseDelay * 2 ^ attemptIndex`
otherwise (hint absent, `NaN`, or non-positive); with `baseDelay = 100`
and no hint the waits for attempt indices 0, 1, 2 are 100, 200, 400. -/
theorem getWaitMs_policy :
    (∀ (e : Thrown) (a : Nat) (bd now q : ℚ),
       extractResetSeconds e now = ResetHint.num q → 0 < q →
       getWaitMs e a bd now = q * 1000 + 1000) ∧
    (∀ (e : Thrown) (a : Nat) (bd now : ℚ),
       extractResetSeconds e now = ResetHint.null →
       getWaitMs e a bd now = bd * 2 ^ a) ∧
    (∀ (e : Thrown) (a : Nat) (bd now : ℚ),
       extractResetSeconds e now = ResetHint.nan →
       getWaitMs e a bd now = bd * 2 ^ a) ∧
    (∀ (e : Thrown) (a : Nat) (bd now q : ℚ),
       extractResetSeconds e now = ResetHint.num q → q ≤ 0 →
       getWaitMs e a bd now = bd * 2 ^ a) ∧
    (getWaitMs ⟨true, "HTTP 429: Too Many Requests", none⟩ 0 100 0 = 100 ∧
     getWaitMs ⟨true, "HTTP 429: Too Many Requests", none⟩ 1 100 0 = 200 ∧
     getWaitMs ⟨true, "HTTP 429: Too Many Requests", none⟩ 2 100 0 = 400) :=
  have hnull : ∀ (e : Thrown) (a : Nat) (bd now : ℚ),
      extractResetSeconds e now = ResetHint.null →
      getWaitMs e a bd now = bd * 2 ^ a := by
    intro e a bd now h
    unfold getWaitMs
    rw [h]
  have hnone : extractResetSeconds ⟨true, "HTTP 429: Too Many Requests", none⟩ 0 = ResetHint.null := rfl
  ⟨by
    intro e a bd now q h hq
    unfold getWaitMs
    rw [h]
    simp [hq],
   hnull,
   by
    intro e a bd now h
    unfold getWaitMs
    rw [h],
   by
    intro e a bd now q h hq
    unfold getWaitMs
    rw [h]
    simp [not_lt.mpr hq],
   by rw [hnull _ 0 100 0 hnone]; norm_num,
   by rw [hnull _ 1 100 0 hnone]; norm_num,
   by rw [hnull _ 2 100 0 hnone]; norm_num⟩

theorem getWaitMs_policy_witness :
    getWaitMs ⟨true, "HTTP 429", none⟩ 3 7 0 = 7 * 2 ^ 3 :=
  getWaitMs_policy.2.1 ⟨true, "HTTP 429", none⟩ 3 7 0 rfl

theorem getWaitMs_pos (e : Thrown) (a : Nat) (bd now : ℚ) (hbd : 0 < bd) :
    0 < getWaitMs e a bd now := by
  have hpow : (0 : ℚ) < bd * 2 ^ a := by positivity
  unfold getWaitMs
  cases hres : extractResetSeconds e now with
  | num q =>
      by_cases hq : 0 < q
      · simp only [hq, if_true]
        linarith
      · simp only [hq, if_false]
        exact hpow
  | null => exact hpow
  | nan => exact hpow

theorem storeInv_set {α : Type} (thunk : Nat → Except Thrown α) (time : Nat → ℚ)
    (bd : ℚ) (store : Store) (ep : String) (st : RateLimitState)
    (hstore : storeInv thunk time bd store) (hst : entryInv thunk time bd st) :
    storeInv thunk time bd (Store.set store ep st) := by
  intro label st2 h
  unfold Store.set at h
  by_cases hl : label = ep
  · simp only [hl, if_true] at h
    cases h
    exact hst
  · simp only [hl, if_false] at h
    exact hstore label st2 h

theorem entryInv_healthy {α : Type} (thunk : Nat → Except Thrown α) (time : Nat → ℚ)
    (bd : ℚ) (ep : String) (a : Nat) :
    entryInv thunk time bd ⟨ep, 1, 0, time a⟩ :=
  ⟨Or.inr rfl, fun _ => rfl, fun h => absurd h one_ne_zero⟩

theorem entryInv_exhausted {α : Type} (thunk : Nat → Except Thrown α) (time : Nat → ℚ)
    (bd : ℚ) (ep : String) (a : Nat) (e : Thrown) (h : thunk a = Except.error e) :
    entryInv thunk time bd ⟨ep, 0, time a + getWaitMs e a bd (time a), time a⟩ := by
  refine ⟨Or.inl rfl, fun h1 => absurd h1 zero_ne_one, fun _ => ⟨a, e, h, rfl, rfl, fun hbd => ?_⟩⟩
  have hw := getWaitMs_pos e a bd (time a) hbd
  show time a < time a + getWaitMs e a bd (time a)
  linarith

theorem callFrom_storeInv {α : Type} (ep : String) (thunk : Nat → Except Thrown α)
    (time : Nat → ℚ) (bd : ℚ) :
    ∀ (fuel attempt : Nat) (store : Store), storeInv thunk time bd store →
      storeInv thunk time bd (callFrom ep thunk time bd fuel attempt store).store := by
  intro fuel
  induction fuel with
  | zero =>
      intro attempt store hinv
      cases h : thunk attempt with
      | ok v =>
          rw [callFrom_ok ep thunk time bd 0 attempt store h]
          exact storeInv_set thunk time bd store ep _ hinv
            (entryInv_healthy thunk time bd ep attempt)
      | error e =>
          cases h2 : is429 e with
          | false =>
              rw [callFrom_nonlimit ep thunk time bd 0 attempt store h h2]
              exact hinv
          | true =>
              rw [callFrom_limit_zero ep thunk time bd attempt store h h2]
              exact storeInv_set thunk time bd store ep _ hinv
                (entryInv_exhausted thunk time bd ep attempt e h)
  | succ fuel ih =>
      intro attempt store hinv
      cases h : thunk attempt with
      | ok v =>
          rw [callFrom_ok ep thunk time bd (fuel + 1) attempt store h]
          exact storeInv_set thunk time bd store ep _ hinv
            (entryInv_healthy thunk time bd ep attempt)
      | error e =>
          cases h2 : is429 e with
          | false =>
              rw [callFrom_nonlimit ep thunk time bd (fuel + 1) attempt store h h2]
              exact hinv
          | true =>
              rw [callFrom_limit_succ ep thunk time bd fuel attempt store h h2]
              exact ih (attempt + 1) _
                (storeInv_set thunk time bd store ep _ hinv
                  (entryInv_exhausted thunk time bd ep attempt e h))

/-- C5: every entry stored by the rate limiter satisfies: `remaining` is 0
or 1; `remaining = 1` implies `resetAt = 0`; `remaining = 0` implies
`resetAt` is the time of the triggering failure plus the computed wait
(strictly after the failure when the base delay is positive). The empty
store satisfies the invariant and every `call` preserves it. -/
theorem store_invariant_preserved :
    (∀ (α : Type) (thunk : Nat → Except Thrown α) (time : Nat → ℚ) (bd : ℚ),
       storeInv thunk time bd emptyStore) ∧
    (∀ (α : Type) (ep : String) (thunk : Nat → Except Thrown α) (time : Nat → ℚ)
       (bd : ℚ) (maxRetries : Nat) (store : Store),
       storeInv thunk time bd store →
       storeInv thunk time bd (call ep thunk time bd maxRetries store).store) := by
  constructor
  · intro α thunk time bd label st h
    exact absurd h (by simp [emptyStore])
  · intro α ep thunk time bd maxRetries store hinv
    unfold call
    exact callFrom_storeInv ep thunk time bd maxRetries 0 store hinv

theorem store_invariant_preserved_witness :
    storeInv (fun _ => (Except.error ⟨true, "HTTP 429", none⟩ : Except Thrown Nat))
      (fun _ => 0) 100
      (call "search" (fun _ => (Except.error ⟨true, "HTTP 429", none⟩ : Except Thrown Nat))
        (fun _ => 0) 100 2 emptyStore).store :=
  store_invariant_preserved.2 Nat "search"
    (fun _ => Except.error ⟨true, "HTTP 429", none⟩) (fun _ => 0) 100 2 emptyStore
    (store_invariant_preserved.1 Nat
      (fun _ => Except.error ⟨true, "HTTP 429", none⟩) (fun _ => 0) 100)

/-- C7 counterexample: a headers record whose `x-rate-limit-reset` value
is present and non-empty but does not parse as an integer makes
`extractResetSeconds` return `NaN` (the `parseInt` result propagated
through the arithmetic), not the absent value `null` the claim states. -/
theorem extractResetSeconds_nan_counterexample :
    extractResetSeconds ⟨true, "HTTP 429", some [("x-rate-limit-reset", "soon")]⟩ 0 =
      ResetHint.nan ∧
    ResetHint.nan ≠ ResetHint.null := by
  exact ⟨by decide, by decide⟩

/-- C7 amended: `extractResetSeconds` returns
`max(0, (resetTimeMs - now) / 1000)` seconds when an `x-rate-limit-reset`
header is present and parses as an integer (`resetTimeMs` = the integer
times 1000); it returns `null` when no headers record is attached, the
header is missing, or the header value is the empty string; and it returns
`NaN` when the header value is non-empty but fails to parse as an
integer. -/
theorem extractResetSeconds_cases :
    ∀ (e : Thrown) (now : ℚ),
      (e.headers = none → extractResetSeconds e now = ResetHint.null) ∧
      (∀ hs, e.headers = some hs → hs.lookup "x-rate-limit-reset" = none →
        extractResetSeconds e now = ResetHint.null) ∧
      (∀ hs, e.headers = some hs → hs.lookup "x-rate-limit-reset" = some "" →
        extractResetSeconds e now = ResetHint.null) ∧
      (∀ hs v, e.headers = some hs → hs.lookup "x-rate-limit-reset" = some v →
        v ≠ "" → jsParseInt v = none → extractResetSeconds e now = ResetHint.nan) ∧
      (∀ hs v n, e.headers = some hs → hs.lookup "x-rate-limit-reset" = some v →
        v ≠ "" → jsParseInt v = some n →
        extractResetSeconds e now = ResetHint.num (max 0 (((n : ℚ) * 1000 - now) / 1000))) := by
  intro e now
  refine ⟨?_, ?_, ?_, ?_, ?_⟩
  · intro h
    unfold extractResetSeconds
    rw [h]
  · intro hs hh hl
    simp only [extractResetSeconds, hh, hl]
  · intro hs hh hl
    simp only [extractResetSeconds, hh, hl]
    simp
  · intro hs v hh hl hv hp
    simp only [extractResetSeconds, hh, hl, hp]
    simp [hv]
  · intro hs v n hh hl hv hp
    simp only [extractResetSeconds, hh, hl, hp]
    simp [hv]

theorem extractResetSeconds_cases_witness :
    extractResetSeconds ⟨true, "HTTP 429: Too Many Requests", none⟩ 5 = ResetHint.null :=
  (extractResetSeconds_cases ⟨true, "HTTP 429: Too Many Requests", none⟩ 5).1 rfl

theorem strIncludes_of_decomp (s pat : String) (l1 l2 : List Char)
    (h : s.data = l1 ++ pat.data ++ l2) : strIncludes s pat = true :=
  (strIncludes_iff s pat).mpr ⟨l1, l2, h⟩

theorem schedMsg_includes (m p : String) (res : HttpResponse) :
    strIncludes (schedMsg m p res) m = true ∧
    strIncludes (schedMsg m p res) p = true ∧
    strIncludes (schedMsg m p res) (toString res.status) = true ∧
    strIncludes (schedMsg m p res) res.body = true := by
  refine ⟨?_, ?_, ?_, ?_⟩
  · exact strIncludes_of_decomp _ _ ("Scheduler ").data
      ((" " ++ p ++ ": " ++ toString res.status ++ " " ++ res.body).data)
      (by simp [schedMsg, String.data_append, List.append_assoc])
  · exact strIncludes_of_decomp _ _ (("Scheduler " ++ m ++ " ").data)
      ((": " ++ toString res.status ++ " " ++ res.body).data)
      (by simp [schedMsg, String.data_append, List.append_assoc])
  · exact strIncludes_of_decomp _ _ (("Scheduler " ++ m ++ " " ++ p ++ ": ").data)
      ((" " ++ res.body).data)
      (by simp [schedMsg, String.data_append, List.append_assoc])
  · exact strIncludes_of_decomp _ _ (("Scheduler " ++ m ++ " " ++ p ++ ": " ++ toString res.status ++ " ").data)
      ([])
      (by simp [schedMsg, String.data_append, List.append_assoc])

/-- C8 counterexample: `Scheduler.health` performs a bare fetch and parses
the body without consulting the status, so a non-2xx response on the
`GET /health` route does not raise the descriptive error the claim states
for every route. -/
theorem schedulerHealth_counterexample :
    schedulerHealth ⟨500, "oops"⟩ = Except.ok "oops" ∧
    respOk ⟨500, "oops"⟩ = false := by
  exact ⟨rfl, by decide⟩

/-- C8 amended: for every route that goes through `Scheduler.request`
(`POST /schedule`, `POST /schedule-batch`, `POST /schedule-thread`,
`GET /posts` with or without a status filter, `POST /cancel`), a non-2xx
response raises a single descriptive error whose message embeds the HTTP
method, the request path, the status code, and the raw response body; no
retry is applied at this layer. `GET /health` bypasses the status check
and returns the parsed body regardless of status. -/
theorem scheduler_non2xx_error :
    ∀ res : HttpResponse, respOk res = false →
      (schedulerSchedule res = Except.error (schedMsg "POST" "/schedule" res) ∧
       schedulerScheduleBatch res = Except.error (schedMsg "POST" "/schedule-batch" res) ∧
       schedulerScheduleThread res = Except.error (schedMsg "POST" "/schedule-thread" res) ∧
       schedulerCancel res = Except.error (schedMsg "POST" "/cancel" res) ∧
       schedulerListPosts none res = Except.error (schedMsg "GET" "/posts" res) ∧
       (∀ st, schedulerListPosts (some st) res =
         Except.error (schedMsg "GET" ("/posts?status=" ++ st) res))) ∧
      (∀ m p, strIncludes (schedMsg m p res) m = true ∧
        strIncludes (schedMsg m p res) p = true ∧
        strIncludes (schedMsg m p res) (toString res.status) = true ∧
        strIncludes (schedMsg m p res) res.body = true) ∧
      (∀ r2 : HttpResponse, schedulerHealth r2 = Except.ok r2.body) := by
  intro res h
  have hreq : ∀ m p, schedulerRequest m p res = Except.error (schedMsg m p res) := by
    intro m p
    unfold schedulerRequest
    simp [h]
  refine ⟨⟨hreq _ _, hreq _ _, hreq _ _, hreq _ _, hreq _ _, fun st => hreq _ _⟩,
    fun m p => schedMsg_includes m p res, fun r2 => rfl⟩

theorem scheduler_non2xx_error_witness :
    schedulerSchedule ⟨503, "down"⟩ = Except.error (schedMsg "POST" "/schedule" ⟨503, "down"⟩) :=
  ((scheduler_non2xx_error ⟨503, "down"⟩ (by decide)).1).1

/-- C9: the bookmark rate is `bookmarks / impressions * 100` (0 when
impressions is 0) and the rating is exceptional iff the rate is at least
8, good iff in [5, 8), ok iff in [2, 5), failed iff below 2; zero
impressions always rates failed. -/
theorem bookmark_rating_spec :
    (∀ b i : Nat, 0 < i → bookmarkRate b i = (b : ℚ) / (i : ℚ) * 100) ∧
    (∀ b : Nat, bookmarkRate b 0 = 0) ∧
    (∀ r : ℚ,
      (ratingOf r = Rating.exceptional ↔ 8 ≤ r) ∧
      (ratingOf r = Rating.good ↔ 5 ≤ r ∧ r < 8) ∧
      (ratingOf r = Rating.ok ↔ 2 ≤ r ∧ r < 5) ∧
      (ratingOf r = Rating.failed ↔ r < 2)) ∧
    (∀ b : Nat, ratingOf (bookmarkRate b 0) = Rating.failed) := by
  have hzero : ∀ b : Nat, bookmarkRate b 0 = 0 := by
    intro b
    simp [bookmarkRate]
  have hladder : ∀ r : ℚ,
      (ratingOf r = Rating.exceptional ↔ 8 ≤ r) ∧
      (ratingOf r = Rating.good ↔ 5 ≤ r ∧ r < 8) ∧
      (ratingOf r = Rating.ok ↔ 2 ≤ r ∧ r < 5) ∧
      (ratingOf r = Rating.failed ↔ r < 2) := by
    intro r
    unfold ratingOf
    split_ifs with h1 h2 h3 <;>
      refine ⟨?_, ?_, ?_, ?_⟩ <;>
      simp_all <;>
      first
        | linarith
        | (intro h; linarith)
  refine ⟨?_, hzero, hladder, ?_⟩
  · intro b i hi
    simp [bookmarkRate, hi]
  · intro b
    rw [hzero b]
    exact (hladder 0).2.2.2.mpr (by norm_num)

theorem bookmark_rating_spec_witness :
    bookmarkRate 21 228 = (21 : ℚ) / (228 : ℚ) * 100 :=
  bookmark_rating_spec.1 21 228 (by decide)

/-- C10 counterexample: with only `X_CONSUMER_KEY` missing, the thrown
message is `"Missing env vars: consumerKey"` — it lists the config field
name, and does not contain the environment variable name
`X_CONSUMER_KEY` the claim says it lists. -/
theorem envFromProcess_counterexample :
    envFromProcess (fun k =>
      if k = "X_CONSUMER_SECRET" then some "a"
      else if k = "X_ACCESS_TOKEN" then some "b"
      else if k = "X_ACCESS_TOKEN_SECRET" then some "c"
      else if k = "X_BEARER_TOKEN" then some "d"
      else none)
      = Except.error "Missing env vars: consumerKey" ∧
    strIncludes "Missing env vars: consumerKey" "X_CONSUMER_KEY" = false := by
  exact ⟨rfl, by decide⟩

theorem falsyEnv_iff (o : Option String) : falsyEnv o = true ↔ o = none ∨ o = some "" := by
  cases o with
  | none => simp [falsyEnv]
  | some s => simp [falsyEnv]

theorem falsyEnv_false (o : Option String) (h : falsyEnv o = false) : o = some (o.getD "") := by
  cases o with
  | none => simp [falsyEnv] at h
  | some s => rfl

/-- C10 amended: a required variable counts as missing iff it is unset or
set to the empty string; when at least one is missing, `envFromProcess`
throws `"Missing env vars: "` followed by the comma-separated config-field
names (`consumerKey`, `consumerSecret`, `accessToken`,
`accessTokenSecret`, `bearerToken`) of the missing variables — not the
environment variable names themselves; when none is missing it returns a
config carrying all five environment values. -/
theorem envFromProcess_spec :
    ∀ env : Env,
      (∀ p ∈ requiredVars, p.1 ∈ missingOf env ↔ (env p.2 = none ∨ env p.2 = some "")) ∧
      (missingOf env ≠ [] →
        envFromProcess env =
          Except.error ("Missing env vars: " ++ String.intercalate ", " (missingOf env))) ∧
      (missingOf env = [] → ∃ cfg : CosmoEnv, envFromProcess env = Except.ok cfg ∧
        env "X_CONSUMER_KEY" = some cfg.consumerKey ∧
        env "X_CONSUMER_SECRET" = some cfg.consumerSecret ∧
        env "X_ACCESS_TOKEN" = some cfg.accessToken ∧
        env "X_ACCESS_TOKEN_SECRET" = some cfg.accessTokenSecret ∧
        env "X_BEARER_TOKEN" = some cfg.bearerToken) := by
  intro env
  refine ⟨?_, ?_, ?_⟩
  · intro p hp
    rw [← falsyEnv_iff]
    simp only [requiredVars, List.mem_cons, List.not_mem_nil, or_false] at hp
    rcases hp with h | h | h | h | h <;>
      subst h <;>
      simp [missingOf, requiredVars, List.mem_map, List.mem_filter]
  · intro h
    have hlen : 0 < (missingOf env).length := List.length_pos.mpr h
    unfold envFromProcess
    simp [hlen]
  · intro h
    have hall : ∀ p ∈ requiredVars, falsyEnv (env p.2) = false := by
      have hlen := congrArg List.length h
      simp [missingOf] at hlen
      intro p hp
      exact hlen p.1 p.2 hp
    have hlen : ¬ 0 < (missingOf env).length := by
      simp [h]
    refine ⟨⟨getEnvStr env "X_CONSUMER_KEY", getEnvStr env "X_CONSUMER_SECRET",
        getEnvStr env "X_ACCESS_TOKEN", getEnvStr env "X_ACCESS_TOKEN_SECRET",
        getEnvStr env "X_BEARER_TOKEN",
        jsNullish (env "SCHEDULER_URL") (env "SCHEDULER_API_URL"),
        env "SCHEDULER_API_KEY"⟩, ?_, ?_, ?_, ?_, ?_, ?_⟩
    · unfold envFromProcess
      simp [hlen]
    · exact falsyEnv_false _
        (hall ("consumerKey", "X_CONSUMER_KEY") (by simp [requiredVars]))
    · exact falsyEnv_false _
        (hall ("consumerSecret", "X_CONSUMER_SECRET") (by simp [requiredVars]))
    · exact falsyEnv_false _
        (hall ("accessToken", "X_ACCESS_TOKEN") (by simp [requiredVars]))
    · exact falsyEnv_false _
        (hall ("accessTokenSecret", "X_ACCESS_TOKEN_SECRET") (by simp [requiredVars]))
    · exact falsyEnv_false _
        (hall ("bearerToken", "X_BEARER_TOKEN") (by simp [requiredVars]))

theorem envFromProcess_spec_witness :
    envFromProcess (fun _ => none) =
      Except.error ("Missing env vars: " ++ String.intercalate ", " (missingOf (fun _ => none))) :=
  (envFromProcess_spec (fun _ => none)).2.1 (by decide)
